import Mathlib

/-!
Shallow embedding of `src/src/App.tsx` of the strength-routine-tracker
repository, together with theorems settling the specification claims.

The application is a single React component. Its state hooks become the
fields of `AppState`; the remote record store (`blink.db.exercises`) is
modelled as `Store`, the list of records it holds ordered descending by
creation time, exactly the order `list({ orderBy: { created_at: 'desc' } })`
returns them in (a record created at the current time is the newest, so a
successful `create` prepends).  Asynchronous calls are modelled by passing
their outcome (`fetchOk` / `createOk`) explicitly.  The JavaScript builtins
`parseInt` and `parseFloat` are kept abstract as function parameters
`pInt : String → Int` and `pFloat : String → ℚ`: the code applies them to
the raw field strings with no further checks, and no claim depends on their
concrete values.  JavaScript string truthiness (`!s` is true exactly when
`s` is the empty string, used in the validation guard on line 79 and in
the `previousExercise` conditional on line 167) is modelled by comparison
with `""`.  `String.toLowerCase` is modelled character-wise by
`Char.toLower` over the string's character list so that it evaluates in
the kernel.
-/

/-- The `category` field of an exercise record: `'upper' | 'lower'`
(App.tsx line 18). -/
inductive Category where
  | upper
  | lower
deriving DecidableEq

/-- The `Exercise` interface (App.tsx lines 14-23).  `reps` and `sets` are
produced by `parseInt`, modelled as `Int`; `total_weight` by `parseFloat`,
modelled as `ℚ`; `created_at` is an ISO-8601 string. -/
structure Exercise where
  id : String
  user_id : String
  exercise_name : String
  category : Category
  reps : Int
  sets : Int
  total_weight : ℚ
  created_at : String
deriving DecidableEq

/-- The `User` interface (App.tsx lines 25-28). -/
structure User where
  id : String
  email : String
deriving DecidableEq

/-- The `formData` draft state (App.tsx lines 36-41): four raw text fields. -/
structure FormDraft where
  exercise_name : String
  reps : String
  sets : String
  total_weight : String
deriving DecidableEq

/-- The empty draft, the initial value of `formData` and the value it is
reset to after a successful submission (App.tsx lines 36-41 and 99). -/
def emptyDraft : FormDraft :=
  { exercise_name := "", reps := "", sets := "", total_weight := "" }

/-- A `toast` notification as issued by the component: title, description
and whether the `destructive` variant was requested. -/
structure Toast where
  title : String
  description : String
  destructive : Bool
deriving DecidableEq

/-- Toast issued when `blink.db.exercises.list` fails (App.tsx lines 54-58). -/
def loadErrorToast : Toast :=
  { title := "Error", description := "Failed to load exercises", destructive := true }

/-- Toast issued when a required field is empty on submit (App.tsx lines 80-84). -/
def validationToast : Toast :=
  { title := "Error", description := "Please fill in all fields", destructive := true }

/-- Toast issued when `blink.db.exercises.create` fails (App.tsx lines 109-113). -/
def createErrorToast : Toast :=
  { title := "Error", description := "Failed to log exercise", destructive := true }

/-- Toast issued after a successful submission (App.tsx lines 103-106). -/
def successToast : Toast :=
  { title := "Success", description := "Exercise logged successfully!", destructive := false }

/-- The component state of `App` (App.tsx lines 31-42), plus the list of
toasts issued so far (newest first), which records the notifications shown
to the user. -/
structure AppState where
  user : Option User
  loading : Bool
  exercises : List Exercise
  activeTab : Category
  showAddForm : Bool
  formData : FormDraft
  toasts : List Toast
deriving DecidableEq

/-- The remote record store, as the list `blink.db.exercises.list` with
`orderBy: { created_at: 'desc' }` would return it: all stored records,
newest first. -/
abbrev Store := List Exercise

/-- The records the store returns for `where: { user_id: uid }`
(App.tsx lines 47-50), preserving the store's descending creation order. -/
def listForUser (st : Store) (uid : String) : List Exercise :=
  st.filter (fun ex => ex.user_id == uid)

/-- Model of `loadExercises` (App.tsx lines 44-60): early return when no user is
signed in; otherwise fetch this user's records and replace `exercises`,
or on transport failure leave state untouched except for an error toast.
`fetchOk` is the outcome of the awaited `list` call. -/
def loadExercises (s : AppState) (st : Store) (fetchOk : Bool) : AppState :=
  match s.user with
  | none => s
  | some u =>
    if fetchOk then
      { s with exercises := listForUser st u.id }
    else
      { s with toasts := loadErrorToast :: s.toasts }

/-- Character-wise model of JavaScript `String.toLowerCase` (used on
App.tsx line 119), written over the character list so that it reduces in
the kernel. -/
def lowerStr (s : String) : List Char :=
  s.data.map Char.toLower

/-- Model of `getPreviousExercise` (App.tsx lines 117-122): the first record in the
loaded list whose name matches the candidate case-insensitively and whose
category equals the target. -/
def getPreviousExercise (exercises : List Exercise) (exerciseName : String)
    (category : Category) : Option Exercise :=
  exercises.find? (fun ex =>
    (lowerStr ex.exercise_name == lowerStr exerciseName) && (ex.category == category))

/-- Model of `getFilteredExercises` (App.tsx lines 124-126): the records of the
loaded list whose category matches. -/
def getFilteredExercises (exercises : List Exercise) (category : Category) :
    List Exercise :=
  exercises.filter (fun ex => ex.category == category)

/-- The render-time `previousExercise` binding (App.tsx line 167):
`formData.exercise_name ? getPreviousExercise(formData.exercise_name, activeTab) : null`.
A JavaScript string is truthy exactly when it is non-empty. -/
def previousExercise (s : AppState) : Option Exercise :=
  if s.formData.exercise_name ≠ "" then
    getPreviousExercise s.exercises s.formData.exercise_name s.activeTab
  else
    none

/-- The validation guard of `handleSubmit` (App.tsx line 79):
`!formData.exercise_name || !formData.reps || !formData.sets || !formData.total_weight`.
For strings, `!x` is true exactly when `x` is empty. -/
def draftIncomplete (d : FormDraft) : Bool :=
  (d.exercise_name == "") || (d.reps == "") || (d.sets == "") || (d.total_weight == "")

/-- The record passed to `blink.db.exercises.create` (App.tsx lines 89-97):
`user_id` from the signed-in user (`user!.id`), name from the draft,
category from the active tab, reps/sets/weight parsed from the draft
fields, `created_at` the current time.  The store assigns the fresh
identifier `newId`. -/
def newRecord (pInt : String → Int) (pFloat : String → ℚ) (s : AppState)
    (u : User) (now newId : String) : Exercise :=
  { id := newId
    user_id := u.id
    exercise_name := s.formData.exercise_name
    category := s.activeTab
    reps := pInt s.formData.reps
    sets := pInt s.formData.sets
    total_weight := pFloat s.formData.total_weight
    created_at := now }

/-- Model of `handleSubmit` (App.tsx lines 76-115), together with its effect on the
store.  If any field is empty: validation toast, nothing else (lines
79-86).  Otherwise `create` is attempted with the current time and active
tab; on success (lines 88-106) the draft is cleared, the form collapses,
`loadExercises` re-fetches (its outcome `fetchOk`), and a success toast is
issued; on transport failure (lines 107-114) only an error toast is
issued.  `u` is the signed-in user: the form is only rendered when
`user` is non-null (App.tsx line 148), which justifies `user!.id`. -/
def handleSubmit (pInt : String → Int) (pFloat : String → ℚ) (s : AppState)
    (st : Store) (u : User) (now newId : String) (createOk fetchOk : Bool) :
    AppState × Store :=
  if draftIncomplete s.formData then
    ({ s with toasts := validationToast :: s.toasts }, st)
  else if createOk then
    let r := newRecord pInt pFloat s u now newId
    let st' := r :: st
    let s1 := { s with formData := emptyDraft, showAddForm := false }
    let s2 := loadExercises s1 st' fetchOk
    ({ s2 with toasts := successToast :: s2.toasts }, st')
  else
    ({ s with toasts := createErrorToast :: s.toasts }, st)

/-- The discrete events that mutate application state: the auth-state
subscription (App.tsx lines 62-68), completion of a `loadExercises` call
(lines 70-74 and direct calls), tab changes (line 182), showing/hiding the
form (lines 199, 256, 359), draft edits (lines 285, 326, 336, 347), and
form submission (lines 76-115). -/
inductive Event where
  | authChange (u : Option User) (isLoading : Bool)
  | fetchComplete (fetchOk : Bool)
  | setTab (c : Category)
  | setShowForm (b : Bool)
  | setDraft (d : FormDraft)
  | submit (u : User) (now newId : String) (createOk fetchOk : Bool)

/-- One step of the application: how each event transforms the component
state together with the remote store.  Only `submit` can change the store. -/
def stepSystem (pInt : String → Int) (pFloat : String → ℚ) :
    AppState × Store → Event → AppState × Store
  | (s, st), .authChange u l => ({ s with user := u, loading := l }, st)
  | (s, st), .fetchComplete ok => (loadExercises s st ok, st)
  | (s, st), .setTab c => ({ s with activeTab := c }, st)
  | (s, st), .setShowForm b => ({ s with showAddForm := b }, st)
  | (s, st), .setDraft d => ({ s with formData := d }, st)
  | (s, st), .submit u now newId cOk fOk => handleSubmit pInt pFloat s st u now newId cOk fOk

/-- The derived, read-only views computed during render: the previous-entry
reference (App.tsx line 167) and the two per-category lists (lines 197 and
211), paired with the state after evaluating them. -/
def renderHistoryViews (s : AppState) :
    (Option Exercise × List Exercise × List Exercise) × AppState :=
  ((previousExercise s,
    getFilteredExercises s.exercises Category.upper,
    getFilteredExercises s.exercises Category.lower), s)

/-- Lexicographic order on character lists; on equal-format ISO-8601
timestamp strings this is chronological order. -/
def lexLe : List Char → List Char → Bool
  | [], _ => true
  | _ :: _, [] => false
  | a :: as, b :: bs => if a = b then lexLe as bs else decide (a < b)

/-- The record `a` was created no later than `b`. -/
def createdLe (a b : Exercise) : Prop :=
  lexLe a.created_at.data b.created_at.data = true

/-- The loaded list is ordered most-recent-first, the order the store
provides (`orderBy: { created_at: 'desc' }`). -/
def sortedByCreatedDesc (l : List Exercise) : Prop :=
  l.Pairwise (fun a b => createdLe b a)

/-- A record matches the history lookup for candidate name `n` and target
category `c`: case-insensitive name equality and exact category equality. -/
def matchesPrev (n : String) (c : Category) (ex : Exercise) : Prop :=
  lowerStr ex.exercise_name = lowerStr n ∧ ex.category = c

/-! ## Helper lemmas -/

theorem matchesPrev_iff (n : String) (c : Category) (ex : Exercise) :
    ((lowerStr ex.exercise_name == lowerStr n) && (ex.category == c)) = true ↔
      matchesPrev n c ex := by
  simp [matchesPrev, Bool.and_eq_true]

theorem lexLe_refl (l : List Char) : lexLe l l = true := by
  induction l with
  | nil => rfl
  | cons a as ih => simp [lexLe, ih]

theorem find?_first_of_pairwise {R : Exercise → Exercise → Prop}
    {p : Exercise → Bool} {l : List Exercise} {r : Exercise}
    (hp : l.Pairwise R) (h : l.find? p = some r) :
    ∀ x ∈ l, p x = true → x = r ∨ R r x := by
  induction l with
  | nil => simp at h
  | cons a l ih =>
    rcases List.pairwise_cons.mp hp with ⟨hRa, hpl⟩
    intro x hx hpx
    cases hpa : p a with
    | true =>
      rw [List.find?_cons_of_pos _ hpa, Option.some.injEq] at h
      rcases List.mem_cons.mp hx with rfl | hxl
      · exact Or.inl h
      · exact Or.inr (h ▸ hRa x hxl)
    | false =>
      rw [List.find?_cons_of_neg _ (by simp [hpa])] at h
      rcases List.mem_cons.mp hx with rfl | hxl
      · rw [hpa] at hpx; exact absurd hpx (by simp)
      · exact ih hpl h x hxl hpx

theorem mem_getFilteredExercises (exs : List Exercise) (c : Category) (ex : Exercise) :
    ex ∈ getFilteredExercises exs c ↔ ex ∈ exs ∧ ex.category = c := by
  simp [getFilteredExercises, List.mem_filter]

theorem getFilteredExercises_sublist (exs : List Exercise) (c : Category) :
    (getFilteredExercises exs c).Sublist exs :=
  List.filter_sublist exs

theorem length_filtered_partition (exs : List Exercise) :
    (getFilteredExercises exs Category.upper).length +
      (getFilteredExercises exs Category.lower).length = exs.length := by
  induction exs with
  | nil => rfl
  | cons x xs ih =>
    unfold getFilteredExercises at *
    cases h : x.category <;> simp [List.filter_cons, h, ← ih] <;> omega

theorem draftIncomplete_eq_false_iff (d : FormDraft) :
    draftIncomplete d = false ↔
      (d.exercise_name ≠ "" ∧ d.reps ≠ "" ∧ d.sets ≠ "" ∧ d.total_weight ≠ "") := by
  simp [draftIncomplete, and_assoc]

theorem draftIncomplete_eq_true_iff (d : FormDraft) :
    draftIncomplete d = true ↔
      (d.exercise_name = "" ∨ d.reps = "" ∨ d.sets = "" ∨ d.total_weight = "") := by
  simp [draftIncomplete, or_assoc]

/-! ## Claim theorems: pure lookups and views -/

/-- C1: for every loaded record list ordered most-recent-first, every
candidate name and target category, `getPreviousExercise` returns `none`
exactly when no record matches case-insensitively within the category, and
any returned record is a loaded, matching record that was created no
earlier than every other matching record — the most recent prior attempt. -/
theorem getPreviousExercise_most_recent (exs : List Exercise) (n : String)
    (c : Category) (hs : sortedByCreatedDesc exs) :
    (getPreviousExercise exs n c = none ↔ ∀ ex ∈ exs, ¬ matchesPrev n c ex) ∧
    (∀ r, getPreviousExercise exs n c = some r →
      r ∈ exs ∧ matchesPrev n c r ∧
      ∀ ex ∈ exs, matchesPrev n c ex → createdLe ex r) := by
  simp only [getPreviousExercise] at *
  constructor
  · constructor
    · intro h ex hx hm
      exact (List.find?_eq_none.mp h ex hx) ((matchesPrev_iff n c ex).mpr hm)
    · intro h
      cases hf : exs.find? (fun ex =>
          (lowerStr ex.exercise_name == lowerStr n) && (ex.category == c)) with
      | none => rfl
      | some r =>
        have hp := List.find?_some hf
        exact absurd ((matchesPrev_iff n c r).mp hp)
          (h r (List.mem_of_find?_eq_some hf))
  · intro r hf
    have hp := List.find?_some hf
    refine ⟨List.mem_of_find?_eq_some hf, (matchesPrev_iff n c r).mp hp, ?_⟩
    intro ex hx hm
    rcases find?_first_of_pairwise hs hf ex hx ((matchesPrev_iff n c ex).mpr hm) with
      h | h
    · subst h; exact lexLe_refl _
    · exact h

/-- C4: for every loaded record list and category, the filtered view is a
sublist of the loaded list (hence preserves relative order) and contains a
record exactly when the loaded list contains it with that category. -/
theorem getFilteredExercises_exact (exs : List Exercise) (c : Category) :
    (getFilteredExercises exs c).Sublist exs ∧
    (∀ ex, ex ∈ getFilteredExercises exs c ↔ ex ∈ exs ∧ ex.category = c) :=
  ⟨getFilteredExercises_sublist exs c, fun ex => mem_getFilteredExercises exs c ex⟩

/-- C9: the `upper` and `lower` filtered views partition the loaded list:
their lengths add up to the full length, and every loaded record belongs
to exactly one of the two views. -/
theorem filtered_views_partition (exs : List Exercise) :
    (getFilteredExercises exs Category.upper).length +
      (getFilteredExercises exs Category.lower).length = exs.length ∧
    (∀ ex ∈ exs,
      (ex ∈ getFilteredExercises exs Category.upper ∧
        ex ∉ getFilteredExercises exs Category.lower) ∨
      (ex ∈ getFilteredExercises exs Category.lower ∧
        ex ∉ getFilteredExercises exs Category.upper)) := by
  refine ⟨length_filtered_partition exs, fun ex hx => ?_⟩
  cases hc : ex.category with
  | upper =>
    exact Or.inl ⟨(mem_getFilteredExercises exs _ ex).mpr ⟨hx, hc⟩,
      fun hmem => by simpa [hc] using ((mem_getFilteredExercises exs _ ex).mp hmem).2⟩
  | lower =>
    exact Or.inr ⟨(mem_getFilteredExercises exs _ ex).mpr ⟨hx, hc⟩,
      fun hmem => by simpa [hc] using ((mem_getFilteredExercises exs _ ex).mp hmem).2⟩

/-- C8: computing the render-time history views (the previous-entry
reference and the two per-category lists) leaves the application state
unchanged, and the views are functions of only the loaded list, the draft
and the active tab. -/
theorem renderHistoryViews_pure (s t : AppState)
    (hex : s.exercises = t.exercises) (hd : s.formData = t.formData)
    (ht : s.activeTab = t.activeTab) :
    (renderHistoryViews s).2 = s ∧ (renderHistoryViews t).2 = t ∧
    (renderHistoryViews s).1 = (renderHistoryViews t).1 := by
  refine ⟨rfl, rfl, ?_⟩
  simp [renderHistoryViews, previousExercise, hex, hd, ht]

/-- C10: whenever the draft's exercise-name field is empty, the
previous-entry reference is `none`, whatever records are loaded. -/
theorem previousExercise_none_of_empty_name (s : AppState)
    (h : s.formData.exercise_name = "") :
    previousExercise s = none := by
  simp [previousExercise, h]

/-! ## Claim theorems: form submission -/

/-- C2: submitting a draft whose four fields are all non-empty, with the
store calls succeeding, appends exactly one record — category the active
tab, creation timestamp the current time — clears the draft, collapses the
form, re-fetches the list from the store, and issues the success toast. -/
theorem handleSubmit_success_spec (pInt : String → Int) (pFloat : String → ℚ)
    (s : AppState) (st : Store) (u : User) (now newId : String)
    (hu : s.user = some u)
    (hname : s.formData.exercise_name ≠ "") (hreps : s.formData.reps ≠ "")
    (hsets : s.formData.sets ≠ "") (hw : s.formData.total_weight ≠ "") :
    handleSubmit pInt pFloat s st u now newId true true =
      ({ s with exercises := listForUser (newRecord pInt pFloat s u now newId :: st) u.id,
                showAddForm := false,
                formData := emptyDraft,
                toasts := successToast :: s.toasts },
        newRecord pInt pFloat s u now newId :: st) ∧
    (newRecord pInt pFloat s u now newId).category = s.activeTab ∧
    (newRecord pInt pFloat s u now newId).created_at = now := by
  have hc : draftIncomplete s.formData = false :=
    (draftIncomplete_eq_false_iff s.formData).mpr ⟨hname, hreps, hsets, hw⟩
  refine ⟨?_, rfl, rfl⟩
  simp [handleSubmit, hc, loadExercises, hu]

/-- C3: submitting a draft with at least one empty field changes neither
the store nor any state field except for prepending the validation toast:
no record is created, the draft data and the open form are intact. -/
theorem handleSubmit_rejects_incomplete (pInt : String → Int)
    (pFloat : String → ℚ) (s : AppState) (st : Store) (u : User)
    (now newId : String) (createOk fetchOk : Bool)
    (h : s.formData.exercise_name = "" ∨ s.formData.reps = "" ∨
      s.formData.sets = "" ∨ s.formData.total_weight = "") :
    handleSubmit pInt pFloat s st u now newId createOk fetchOk =
      ({ s with toasts := validationToast :: s.toasts }, st) := by
  have hc : draftIncomplete s.formData = true :=
    (draftIncomplete_eq_true_iff s.formData).mpr h
  simp [handleSubmit, hc]

/-- C5: transport failures are surfaced as toasts and preserve state: a
failed fetch leaves everything but the toast list unchanged (the loaded
list is not cleared), and a failed create leaves the store, the draft and
the open form unchanged, adding only the error toast. -/
theorem transport_error_state_preserved (pInt : String → Int)
    (pFloat : String → ℚ) (s : AppState) (st : Store) (u : User)
    (now newId : String) (fetchOk : Bool) (hu : s.user = some u)
    (hcomplete : s.formData.exercise_name ≠ "" ∧ s.formData.reps ≠ "" ∧
      s.formData.sets ≠ "" ∧ s.formData.total_weight ≠ "") :
    loadExercises s st false = { s with toasts := loadErrorToast :: s.toasts } ∧
    handleSubmit pInt pFloat s st u now newId false fetchOk =
      ({ s with toasts := createErrorToast :: s.toasts }, st) := by
  have hc : draftIncomplete s.formData = false :=
    (draftIncomplete_eq_false_iff s.formData).mpr hcomplete
  constructor
  · simp [loadExercises, hu]
  · simp [handleSubmit, hc]

/-- C6: with the create call succeeding, the store is left unchanged by a
submission exactly when some field is empty; and a complete draft appends
the one record whose reps and sets are the integer parses of the field
strings and whose total weight is the decimal parse of the weight field —
the fields are arbitrary strings, so no validation beyond non-emptiness
guards the creation. -/
theorem handleSubmit_validation_iff_parse (pInt : String → Int)
    (pFloat : String → ℚ) (s : AppState) (st : Store) (u : User)
    (now newId : String) (fetchOk : Bool) :
    ((handleSubmit pInt pFloat s st u now newId true fetchOk).2 = st ↔
      (s.formData.exercise_name = "" ∨ s.formData.reps = "" ∨
        s.formData.sets = "" ∨ s.formData.total_weight = "")) ∧
    ((s.formData.exercise_name ≠ "" ∧ s.formData.reps ≠ "" ∧
        s.formData.sets ≠ "" ∧ s.formData.total_weight ≠ "") →
      (handleSubmit pInt pFloat s st u now newId true fetchOk).2 =
        newRecord pInt pFloat s u now newId :: st ∧
      (newRecord pInt pFloat s u now newId).reps = pInt s.formData.reps ∧
      (newRecord pInt pFloat s u now newId).sets = pInt s.formData.sets ∧
      (newRecord pInt pFloat s u now newId).total_weight =
        pFloat s.formData.total_weight) := by
  constructor
  · cases hc : draftIncomplete s.formData with
    | true =>
      have h1 : (handleSubmit pInt pFloat s st u now newId true fetchOk).2 = st := by
        simp [handleSubmit, hc]
      exact iff_of_true h1 ((draftIncomplete_eq_true_iff s.formData).mp hc)
    | false =>
      have h1 : (handleSubmit pInt pFloat s st u now newId true fetchOk).2 =
          newRecord pInt pFloat s u now newId :: st := by
        simp [handleSubmit, hc]
      refine iff_of_false ?_ ?_
      · rw [h1]
        exact fun hcons => (List.cons_ne_self _ _) hcons
      · intro hor
        rw [(draftIncomplete_eq_true_iff s.formData).mpr hor] at hc
        exact Bool.true_eq_false.mp hc
  · intro hcomplete
    have hc : draftIncomplete s.formData = false :=
      (draftIncomplete_eq_false_iff s.formData).mpr hcomplete
    refine ⟨?_, rfl, rfl, rfl⟩
    simp [handleSubmit, hc]

/-- C7: every application event preserves all existing store records (the
old store is a suffix of the new one, so no record is modified, deleted or
recategorised) and changes the store at most by prepending the single
created record; the in-memory list is either untouched or replaced
wholesale by a fresh fetch of the store contents. -/
theorem records_immutable (pInt : String → Int) (pFloat : String → ℚ)
    (s : AppState) (st : Store) (e : Event) :
    st.IsSuffix (stepSystem pInt pFloat (s, st) e).2 ∧
    ((stepSystem pInt pFloat (s, st) e).2 = st ∨
      ∃ r, (stepSystem pInt pFloat (s, st) e).2 = r :: st) ∧
    ((stepSystem pInt pFloat (s, st) e).1.exercises = s.exercises ∨
      ∃ uid, (stepSystem pInt pFloat (s, st) e).1.exercises =
        listForUser (stepSystem pInt pFloat (s, st) e).2 uid) := by
  cases e with
  | authChange u l => exact ⟨List.suffix_refl st, Or.inl rfl, Or.inl rfl⟩
  | fetchComplete ok =>
    refine ⟨List.suffix_refl st, Or.inl rfl, ?_⟩
    simp only [stepSystem, loadExercises]
    cases hu : s.user with
    | none => exact Or.inl rfl
    | some u =>
      cases ok with
      | true => exact Or.inr ⟨u.id, rfl⟩
      | false => exact Or.inl rfl
  | setTab c => exact ⟨List.suffix_refl st, Or.inl rfl, Or.inl rfl⟩
  | setShowForm b => exact ⟨List.suffix_refl st, Or.inl rfl, Or.inl rfl⟩
  | setDraft d => exact ⟨List.suffix_refl st, Or.inl rfl, Or.inl rfl⟩
  | submit u now newId cOk fOk =>
    simp only [stepSystem, handleSubmit]
    cases hc : draftIncomplete s.formData with
    | true => exact ⟨List.suffix_refl st, Or.inl rfl, Or.inl rfl⟩
    | false =>
      cases cOk with
      | false => exact ⟨List.suffix_refl st, Or.inl rfl, Or.inl rfl⟩
      | true =>
        simp only [if_true, Bool.false_eq_true, if_false]
        refine ⟨List.suffix_cons _ st, Or.inr ⟨_, rfl⟩, ?_⟩
        simp only [loadExercises]
        cases hu : s.user with
        | none => exact Or.inl rfl
        | some v =>
          cases fOk with
          | true => exact Or.inr ⟨v.id, rfl⟩
          | false => exact Or.inl rfl

/-! ## Concrete data for witnesses -/

/-- A signed-in demo user. -/
def demoUser : User := { id := "u1", email := "lifter@example.com" }

/-- An upper-body record, the newest in the demo store. -/
def benchMar : Exercise :=
  { id := "e3", user_id := "u1", exercise_name := "Bench Press",
    category := Category.upper, reps := 10, sets := 3, total_weight := 135,
    created_at := "2024-03-01T10:00:00Z" }

/-- The more recent of the two lower-body squat records. -/
def squatsFeb : Exercise :=
  { id := "e2", user_id := "u1", exercise_name := "Squats",
    category := Category.lower, reps := 8, sets := 3, total_weight := 185,
    created_at := "2024-02-01T10:00:00Z" }

/-- The older squat record, with different letter case. -/
def squatsJan : Exercise :=
  { id := "e1", user_id := "u1", exercise_name := "SQUATS",
    category := Category.lower, reps := 8, sets := 3, total_weight := 175,
    created_at := "2024-01-05T10:00:00Z" }

/-- A demo record list as the store returns it: newest first. -/
def demoRecords : List Exercise := [benchMar, squatsFeb, squatsJan]

/-- A complete draft, as in the spec's submission example. -/
def demoDraft : FormDraft :=
  { exercise_name := "Bench Press", reps := "10", sets := "3", total_weight := "135" }

/-- A signed-in state with the complete draft and the form open. -/
def demoState : AppState :=
  { user := some demoUser, loading := false, exercises := [],
    activeTab := Category.upper, showAddForm := true, formData := demoDraft,
    toasts := [] }

/-- The spec's rejection example: `sets` is empty. -/
def demoIncompleteDraft : FormDraft :=
  { exercise_name := "Bench Press", reps := "10", sets := "", total_weight := "135" }

/-- A signed-in state holding the incomplete draft with the form open. -/
def demoIncompleteState : AppState :=
  { user := some demoUser, loading := false, exercises := [benchMar],
    activeTab := Category.upper, showAddForm := true,
    formData := demoIncompleteDraft, toasts := [] }

/-- A lower-body record whose name is the empty string. -/
def emptyNameRec : Exercise :=
  { id := "e0", user_id := "u1", exercise_name := "",
    category := Category.lower, reps := 1, sets := 1, total_weight := 45,
    created_at := "2024-01-01T09:00:00Z" }

/-- A state whose draft name is empty while a loaded record with an empty
name (a case-insensitive match for it) exists in the active category. -/
def emptyNameState : AppState :=
  { user := some demoUser, loading := false, exercises := [emptyNameRec],
    activeTab := Category.lower, showAddForm := true, formData := emptyDraft,
    toasts := [] }

/-! ## Witnesses -/

/-- Witness for C1: on the demo list, lower-case candidate "squats"
resolves against the two differently-cased squat records. -/
theorem getPreviousExercise_most_recent_witness :
    (getPreviousExercise demoRecords "squats" Category.lower = none ↔
      ∀ ex ∈ demoRecords, ¬ matchesPrev "squats" Category.lower ex) ∧
    (∀ r, getPreviousExercise demoRecords "squats" Category.lower = some r →
      r ∈ demoRecords ∧ matchesPrev "squats" Category.lower r ∧
      ∀ ex ∈ demoRecords, matchesPrev "squats" Category.lower ex →
        createdLe ex r) :=
  getPreviousExercise_most_recent demoRecords "squats" Category.lower
    (by unfold sortedByCreatedDesc createdLe; decide)

/-- Witness for C2: submitting the complete demo draft on the empty store. -/
theorem handleSubmit_success_spec_witness :
    handleSubmit (fun _ => 0) (fun _ => 0) demoState [] demoUser
        "2024-04-01T10:00:00Z" "e9" true true =
      ({ demoState with
          exercises := listForUser
            (newRecord (fun _ => 0) (fun _ => 0) demoState demoUser
              "2024-04-01T10:00:00Z" "e9" :: []) demoUser.id,
          showAddForm := false,
          formData := emptyDraft,
          toasts := successToast :: demoState.toasts },
        newRecord (fun _ => 0) (fun _ => 0) demoState demoUser
          "2024-04-01T10:00:00Z" "e9" :: []) ∧
    (newRecord (fun _ => 0) (fun _ => 0) demoState demoUser
      "2024-04-01T10:00:00Z" "e9").category = demoState.activeTab ∧
    (newRecord (fun _ => 0) (fun _ => 0) demoState demoUser
      "2024-04-01T10:00:00Z" "e9").created_at = "2024-04-01T10:00:00Z" :=
  handleSubmit_success_spec (fun _ => 0) (fun _ => 0) demoState [] demoUser
    "2024-04-01T10:00:00Z" "e9" rfl (by decide) (by decide) (by decide) (by decide)

/-- Witness for C3: the spec's rejection example, empty `sets` field. -/
theorem handleSubmit_rejects_incomplete_witness :
    handleSubmit (fun _ => 0) (fun _ => 0) demoIncompleteState [benchMar]
        demoUser "2024-04-01T10:00:00Z" "e9" true true =
      ({ demoIncompleteState with
          toasts := validationToast :: demoIncompleteState.toasts },
        [benchMar]) :=
  handleSubmit_rejects_incomplete (fun _ => 0) (fun _ => 0) demoIncompleteState
    [benchMar] demoUser "2024-04-01T10:00:00Z" "e9" true true
    (Or.inr (Or.inr (Or.inl rfl)))

/-- Witness for C5: a failed fetch and a failed create on the demo state. -/
theorem transport_error_state_preserved_witness :
    loadExercises demoState [benchMar] false =
      { demoState with toasts := loadErrorToast :: demoState.toasts } ∧
    handleSubmit (fun _ => 0) (fun _ => 0) demoState [benchMar] demoUser
        "2024-04-01T10:00:00Z" "e9" false true =
      ({ demoState with toasts := createErrorToast :: demoState.toasts },
        [benchMar]) :=
  transport_error_state_preserved (fun _ => 0) (fun _ => 0) demoState [benchMar]
    demoUser "2024-04-01T10:00:00Z" "e9" true rfl (by decide)

/-- Witness for C6: a complete draft is accepted whatever the parses
return; here `parseInt` is the constant 7 and `parseFloat` the constant 5. -/
theorem handleSubmit_validation_iff_parse_witness :
    (handleSubmit (fun _ => 7) (fun _ => 5) demoState [] demoUser
        "2024-04-01T10:00:00Z" "e9" true true).2 =
      newRecord (fun _ => 7) (fun _ => 5) demoState demoUser
        "2024-04-01T10:00:00Z" "e9" :: [] ∧
    (newRecord (fun _ => 7) (fun _ => 5) demoState demoUser
      "2024-04-01T10:00:00Z" "e9").reps = 7 ∧
    (newRecord (fun _ => 7) (fun _ => 5) demoState demoUser
      "2024-04-01T10:00:00Z" "e9").sets = 7 ∧
    (newRecord (fun _ => 7) (fun _ => 5) demoState demoUser
      "2024-04-01T10:00:00Z" "e9").total_weight = 5 :=
  (handleSubmit_validation_iff_parse (fun _ => 7) (fun _ => 5) demoState []
    demoUser "2024-04-01T10:00:00Z" "e9" true).2 (by decide)

/-- Witness for C8: evaluating the render-time views on the demo state
returns the state unchanged. -/
theorem renderHistoryViews_pure_witness :
    (renderHistoryViews demoState).2 = demoState ∧
    (renderHistoryViews demoState).2 = demoState ∧
    (renderHistoryViews demoState).1 = (renderHistoryViews demoState).1 :=
  renderHistoryViews_pure demoState demoState rfl rfl rfl

/-- Witness for C10: with an empty draft name the reference is `none`, even
though a loaded record with an empty name matches case-insensitively in
the active category. -/
theorem previousExercise_none_of_empty_name_witness :
    previousExercise emptyNameState = none ∧
    matchesPrev emptyNameState.formData.exercise_name
      emptyNameState.activeTab emptyNameRec :=
  ⟨previousExercise_none_of_empty_name emptyNameState rfl,
    by unfold matchesPrev; decide⟩
